import Mathlib

/-!
Verification development for the computer-vision notebook collection.

Each definition in this file is a shallow embedding of a piece of the
repository (the four Jupyter notebooks), translated directly from the
Python source.  Real-valued tensor mathematics is embedded over `ℝ`,
Python dictionaries over association lists or `String → Option`-maps,
and the top-level script structure of each notebook over explicit event
traces.  The theorems settle the specification claims against these
embeddings.
-/

/-! ## Knowledge distillation (`10_knowledge_distillation.ipynb`)

Embedding of `ImageDistilTrainer.compute_loss`.  A batch of logits is a
function `Fin b → Fin n → ℝ` (batch index, class index).  `F.softmax`
and `F.log_softmax` over the last dimension, and
`nn.KLDivLoss(reduction="batchmean")`, are embedded by their exact
mathematical definitions. -/

/-- Embedding of `torch.nn.functional.softmax` along the last dimension. -/
noncomputable def softmax {n : Nat} (z : Fin n → ℝ) : Fin n → ℝ :=
  fun i => Real.exp (z i) / ∑ j, Real.exp (z j)

/-- Mathematical Kullback-Leibler divergence between two finite
distributions, the quantity named by the specification. -/
noncomputable def klDiv {n : Nat} (p q : Fin n → ℝ) : ℝ :=
  ∑ i, p i * Real.log (p i / q i)

/-- Cross-entropy of distribution `p` against distribution `q`. -/
noncomputable def crossEntropy {n : Nat} (p q : Fin n → ℝ) : ℝ :=
  -∑ i, p i * Real.log (q i)

/-- Shannon entropy of a finite distribution. -/
noncomputable def shannonEntropy {n : Nat} (p : Fin n → ℝ) : ℝ :=
  -∑ i, p i * Real.log (p i)

/-- Embedding of `nn.KLDivLoss(reduction="batchmean")`: the pointwise
loss is `target * (log target - input)` (the `input` is already in log
space), summed over every element and divided by the batch size. -/
noncomputable def klDivLossBatchmean {b n : Nat}
    (input target : Fin b → Fin n → ℝ) : ℝ :=
  (∑ k, ∑ i, target k i * (Real.log (target k i) - input k i)) / b

/-- Output of a classification model on a batch: logits, the standard
hard-label loss computed by the model, and whether the result is still
tracked by autograd. -/
structure ModelOutput (b n : Nat) where
  logits : Fin b → Fin n → ℝ
  loss : ℝ
  gradTracked : Bool

/-- Embedding of evaluating a model inside a `torch.no_grad()` block:
the value is unchanged but the output is not tracked by autograd. -/
def noGrad {b n : Nat} (o : ModelOutput b n) : ModelOutput b n :=
  { o with gradTracked := false }

/-- The `distillation_loss` local of `ImageDistilTrainer.compute_loss`:
`self.loss_function(soft_student, soft_teacher) * (self.temperature ** 2)`
where `soft_teacher = F.softmax(teacher_output.logits / T, dim=-1)` and
`soft_student = F.log_softmax(student_output.logits / T, dim=-1)`. -/
noncomputable def distillationLoss {b n : Nat}
    (teacherLogits studentLogits : Fin b → Fin n → ℝ) (temperature : ℝ) : ℝ :=
  klDivLossBatchmean
    (fun k i => Real.log (softmax (fun j => studentLogits k j / temperature) i))
    (fun k i => softmax (fun j => teacherLogits k j / temperature) i)
    * temperature ^ 2

/-- Embedding of `ImageDistilTrainer.compute_loss`: the teacher forward
pass happens under `torch.no_grad()`, soft targets are formed with
temperature-scaled (log-)softmax, the KL-divergence loss with batchmean
reduction is scaled by `temperature ** 2`, and the result is blended
with the student hard-label loss using `lambda_param`. -/
noncomputable def computeLoss {b n : Nat}
    (studentOutput teacherOutputRaw : ModelOutput b n)
    (temperature lambda_param : ℝ) : ℝ :=
  let teacher_output := noGrad teacherOutputRaw
  let distillation_loss :=
    distillationLoss teacher_output.logits studentOutput.logits temperature
  let student_target_loss := studentOutput.loss
  (1 - lambda_param) * student_target_loss + lambda_param * distillation_loss

lemma softmax_pos {n : Nat} (z : Fin n → ℝ) (i : Fin n) : 0 < softmax z i := by
  unfold softmax
  exact div_pos (Real.exp_pos _)
    (Finset.sum_pos (fun j _ => Real.exp_pos _) ⟨i, Finset.mem_univ i⟩)

lemma klDiv_eq_sub {n : Nat} (p q : Fin n → ℝ)
    (hp : ∀ i, 0 < p i) (hq : ∀ i, 0 < q i) :
    klDiv p q = ∑ i, p i * (Real.log (p i) - Real.log (q i)) := by
  unfold klDiv
  refine Finset.sum_congr rfl fun i _ => ?_
  rw [Real.log_div (ne_of_gt (hp i)) (ne_of_gt (hq i))]

lemma computeLoss_eq_blend {b n : Nat}
    (studentOutput teacherOutputRaw : ModelOutput b n)
    (temperature lambda_param : ℝ) :
    computeLoss studentOutput teacherOutputRaw temperature lambda_param =
      (1 - lambda_param) * studentOutput.loss +
        lambda_param *
          distillationLoss teacherOutputRaw.logits studentOutput.logits
            temperature := rfl

/-- C1: `ImageDistilTrainer.compute_loss` returns
`(1 - λ) * hard_label_loss + λ * T² * KL(softmax(teacher/T) ‖ softmax(student/T))`
with batch-mean reduction, and the teacher output it uses is the one
produced without gradient tracking. -/
theorem computeLoss_mixes_hard_and_kl {b n : Nat}
    (studentOutput teacherOutputRaw : ModelOutput b n)
    (temperature lambda_param : ℝ) (hT : 0 < temperature) :
    computeLoss studentOutput teacherOutputRaw temperature lambda_param =
      (1 - lambda_param) * studentOutput.loss +
        lambda_param *
          (temperature ^ 2 *
            ((∑ k, klDiv
                (softmax (fun j => teacherOutputRaw.logits k j / temperature))
                (softmax (fun j => studentOutput.logits k j / temperature))) / b))
      ∧ (noGrad teacherOutputRaw).gradTracked = false := by
  refine ⟨?_, rfl⟩
  rw [computeLoss_eq_blend]
  unfold distillationLoss klDivLossBatchmean
  have hnum : ∀ k : Fin b,
      (∑ i, softmax (fun j => teacherOutputRaw.logits k j / temperature) i *
          (Real.log (softmax (fun j => teacherOutputRaw.logits k j / temperature) i) -
            Real.log (softmax (fun j => studentOutput.logits k j / temperature) i))) =
        klDiv (softmax (fun j => teacherOutputRaw.logits k j / temperature))
          (softmax (fun j => studentOutput.logits k j / temperature)) := by
    intro k
    rw [klDiv_eq_sub _ _ (softmax_pos _) (softmax_pos _)]
  have hsum : (∑ k, ∑ i,
      softmax (fun j => teacherOutputRaw.logits k j / temperature) i *
        (Real.log (softmax (fun j => teacherOutputRaw.logits k j / temperature) i) -
          Real.log (softmax (fun j => studentOutput.logits k j / temperature) i))) =
      ∑ k, klDiv (softmax (fun j => teacherOutputRaw.logits k j / temperature))
        (softmax (fun j => studentOutput.logits k j / temperature)) :=
    Finset.sum_congr rfl fun k _ => hnum k
  rw [hsum]
  ring

/-- Witness for `computeLoss_mixes_hard_and_kl` at a concrete instance. -/
theorem computeLoss_mixes_hard_and_kl_witness :
    (0 : ℝ) < 1 ∧
      (computeLoss (b := 1) (n := 2)
          ⟨fun _ _ => 0, 0, true⟩ ⟨fun _ _ => 0, 0, true⟩ 1 (1 / 2) =
        (1 - 1 / 2) * (ModelOutput.loss (b := 1) (n := 2) ⟨fun _ _ => 0, 0, true⟩) +
          1 / 2 *
            (1 ^ 2 *
              ((∑ k : Fin 1, klDiv
                  (softmax (fun j : Fin 2 =>
                    ModelOutput.logits (b := 1) (n := 2) ⟨fun _ _ => 0, 0, true⟩ k j / 1))
                  (softmax (fun j : Fin 2 =>
                    ModelOutput.logits (b := 1) (n := 2) ⟨fun _ _ => 0, 0, true⟩ k j / 1))) /
                      ((1 : Nat) : ℝ)))
        ∧ (noGrad (b := 1) (n := 2) ⟨fun _ _ => 0, 0, true⟩).gradTracked = false) :=
  ⟨one_pos, computeLoss_mixes_hard_and_kl _ _ _ _ one_pos⟩

/-- Rendering of the specification wording for C2: the distillation term
as "T² times the cross-entropy of the teacher's temperature-softened
distribution against the student's temperature-softened
log-probabilities", with the same batch-mean reduction the code uses.
This definition follows the claim, to be compared with
`distillationLoss`, which follows the code. -/
noncomputable def specCrossEntropyTerm {b n : Nat}
    (teacherLogits studentLogits : Fin b → Fin n → ℝ) (temperature : ℝ) : ℝ :=
  temperature ^ 2 *
    ((∑ k, crossEntropy
        (softmax (fun j => teacherLogits k j / temperature))
        (softmax (fun j => studentLogits k j / temperature))) / b)

lemma softmax_zero_div_one (i : Fin 2) :
    softmax (fun _ : Fin 2 => (0 : ℝ) / 1) i = 1 / 2 := by
  unfold softmax
  norm_num [Fin.sum_univ_two, Real.exp_zero]

/-- C2 counterexample: with identical teacher and student logits
`(0, 0)` on a single-example batch and temperature 1, the distillation
term computed by the code is `0`, while the cross-entropy expression of
the claim evaluates to `log 2 ≠ 0`; so the distillation term is not the
temperature-scaled cross-entropy. -/
theorem distillation_term_ne_crossEntropy_term :
    distillationLoss (b := 1) (n := 2) (fun _ _ => 0) (fun _ _ => 0) 1 ≠
      specCrossEntropyTerm (b := 1) (n := 2) (fun _ _ => 0) (fun _ _ => 0) 1 := by
  have h1 : distillationLoss (b := 1) (n := 2) (fun _ _ => 0) (fun _ _ => 0) 1 = 0 := by
    unfold distillationLoss klDivLossBatchmean
    simp [sub_self]
  have h2 : specCrossEntropyTerm (b := 1) (n := 2) (fun _ _ => 0) (fun _ _ => 0) 1 =
      Real.log 2 := by
    unfold specCrossEntropyTerm crossEntropy
    simp only [softmax_zero_div_one, Fin.sum_univ_two, Finset.sum_const,
      Finset.card_univ, Fintype.card_fin]
    rw [show (1 : ℝ) / 2 = (2 : ℝ)⁻¹ by norm_num, Real.log_inv]
    push_cast
    ring
  rw [h1, h2]
  exact (Real.log_pos one_lt_two).ne

/-- C2 amended: the distillation term equals `T²` times the batch mean
of the cross-entropy of the teacher's softened distribution against the
student's softened distribution minus the entropy of the teacher's
softened distribution, i.e. the temperature-scaled KL divergence rather
than the bare cross-entropy. -/
theorem distillation_term_eq_crossEntropy_sub_entropy {b n : Nat}
    (teacherLogits studentLogits : Fin b → Fin n → ℝ)
    (temperature : ℝ) (hT : 0 < temperature) :
    distillationLoss teacherLogits studentLogits temperature =
      temperature ^ 2 *
        ((∑ k, (crossEntropy
            (softmax (fun j => teacherLogits k j / temperature))
            (softmax (fun j => studentLogits k j / temperature)) -
          shannonEntropy
            (softmax (fun j => teacherLogits k j / temperature)))) / b) := by
  unfold distillationLoss klDivLossBatchmean crossEntropy shannonEntropy
  have h : ∀ k : Fin b,
      (∑ i, softmax (fun j => teacherLogits k j / temperature) i *
          (Real.log (softmax (fun j => teacherLogits k j / temperature) i) -
            Real.log (softmax (fun j => studentLogits k j / temperature) i))) =
        (-∑ i, softmax (fun j => teacherLogits k j / temperature) i *
            Real.log (softmax (fun j => studentLogits k j / temperature) i)) -
          (-∑ i, softmax (fun j => teacherLogits k j / temperature) i *
              Real.log (softmax (fun j => teacherLogits k j / temperature) i)) := by
    intro k
    rw [Finset.sum_congr rfl fun i _ => mul_sub _ _ _, Finset.sum_sub_distrib]
    ring
  rw [Finset.sum_congr rfl fun k _ => h k]
  ring

/-- Witness for `distillation_term_eq_crossEntropy_sub_entropy`. -/
theorem distillation_term_eq_crossEntropy_sub_entropy_witness :
    (0 : ℝ) < 1 ∧
      distillationLoss (b := 1) (n := 2) (fun _ _ => 0) (fun _ _ => 0) 1 =
        1 ^ 2 *
          ((∑ k : Fin 1, (crossEntropy
              (softmax (fun j : Fin 2 => (fun _ _ => (0 : ℝ)) k j / 1))
              (softmax (fun j : Fin 2 => (fun _ _ => (0 : ℝ)) k j / 1)) -
            shannonEntropy
              (softmax (fun j : Fin 2 => (fun _ _ => (0 : ℝ)) k j / 1)))) /
            ((1 : Nat) : ℝ)) :=
  ⟨one_pos, distillation_term_eq_crossEntropy_sub_entropy _ _ _ one_pos⟩

/-- C8: when the teacher and student logits coincide, the KL distillation
term is zero and the loss collapses to `(1 - λ)` times the hard-label
loss. -/
theorem identical_logits_kl_zero {b n : Nat}
    (studentOutput teacherOutputRaw : ModelOutput b n)
    (temperature lambda_param : ℝ) (hT : 0 < temperature)
    (hlogits : teacherOutputRaw.logits = studentOutput.logits) :
    distillationLoss teacherOutputRaw.logits studentOutput.logits temperature = 0 ∧
      computeLoss studentOutput teacherOutputRaw temperature lambda_param =
        (1 - lambda_param) * studentOutput.loss := by
  have h0 : distillationLoss teacherOutputRaw.logits studentOutput.logits
      temperature = 0 := by
    unfold distillationLoss klDivLossBatchmean
    rw [hlogits]
    simp [sub_self]
  refine ⟨h0, ?_⟩
  rw [computeLoss_eq_blend, h0]
  ring

/-- Witness for `identical_logits_kl_zero` at a concrete instance. -/
theorem identical_logits_kl_zero_witness :
    (0 : ℝ) < 1 ∧
      (ModelOutput.logits (b := 1) (n := 2) ⟨fun _ _ => 0, 7, true⟩ =
        ModelOutput.logits (b := 1) (n := 2) ⟨fun _ _ => 0, 5, true⟩) ∧
      (distillationLoss
          (ModelOutput.logits (b := 1) (n := 2) ⟨fun _ _ => 0, 7, true⟩)
          (ModelOutput.logits (b := 1) (n := 2) ⟨fun _ _ => 0, 5, true⟩) 1 = 0 ∧
        computeLoss (b := 1) (n := 2)
            ⟨fun _ _ => 0, 5, true⟩ ⟨fun _ _ => 0, 7, true⟩ 1 (1 / 3) =
          (1 - 1 / 3) * (ModelOutput.loss (b := 1) (n := 2) ⟨fun _ _ => 0, 5, true⟩)) :=
  ⟨one_pos, rfl, identical_logits_kl_zero _ _ _ _ one_pos rfl⟩

/-! ## Semantic segmentation inference (`02_image_segmentation.ipynb`)

Embedding of the inference cell: the model logits (one `h × w` grid of
reals per class channel) are rescaled to the original image size with
`nn.functional.interpolate(..., mode="bilinear", align_corners=False)`
and `pred_seg = upsampled_logits.argmax(dim=1)[0]` takes, at every
pixel, the index of the (first) maximal channel. -/

/-- Reading a grid entry, with border replication handled by the
callers clamping the indices into range. -/
def gridGet (g : List (List ℝ)) (i j : Nat) : ℝ := ((g.getD i []).getD j 0 : ℝ)

/-- Source coordinate used by bilinear interpolation with
`align_corners=False`: `(dst + 0.5) * (size / outSize) - 0.5`, clamped
below at `0` as in the reference implementation. -/
def srcCoord (dst size outSize : Nat) : ℚ :=
  max 0 (((dst : ℚ) + 1 / 2) * (size : ℚ) / (outSize : ℚ) - 1 / 2)

/-- Value of the bilinear interpolation of grid `g` at output pixel
`(i, j)` of an `outH × outW` result: the four neighbouring input pixels
(clamped at the border) are blended with the fractional weights of the
source coordinate. -/
noncomputable def bilinearAt (g : List (List ℝ)) (outH outW i j : Nat) : ℝ :=
  let h := g.length
  let w := (g.getD 0 []).length
  let sy := srcCoord i h outH
  let sx := srcCoord j w outW
  let y0 := min sy.floor.toNat (h - 1)
  let x0 := min sx.floor.toNat (w - 1)
  let y1 := min (y0 + 1) (h - 1)
  let x1 := min (x0 + 1) (w - 1)
  let dy : ℝ := (sy : ℝ) - (y0 : ℝ)
  let dx : ℝ := (sx : ℝ) - (x0 : ℝ)
  (1 - dy) * ((1 - dx) * gridGet g y0 x0 + dx * gridGet g y0 x1) +
    dy * ((1 - dx) * gridGet g y1 x0 + dx * gridGet g y1 x1)

/-- Embedding of `nn.functional.interpolate(g, size=(outH, outW),
mode="bilinear", align_corners=False)` on a single channel. -/
noncomputable def bilinearResize (outH outW : Nat) (g : List (List ℝ)) :
    List (List ℝ) :=
  (List.range outH).map fun i => (List.range outW).map fun j =>
    bilinearAt g outH outW i j

/-- Index of the first maximal entry of a list of reals, the semantics
of `torch.argmax` along a dimension. -/
noncomputable def argmaxIdx : List ℝ → Nat
  | [] => 0
  | [_] => 0
  | x :: y :: r =>
    let t := argmaxIdx (y :: r)
    if x < (y :: r).getD t 0 then t + 1 else 0

/-- Embedding of the `pred_seg` computation: upsample every class
channel of the logits to the original image size `(outH, outW)` and take
the channel-wise argmax at every pixel
(`upsampled_logits.argmax(dim=1)[0]`). -/
noncomputable def predSeg (logits : List (List (List ℝ))) (outH outW : Nat) :
    List (List Nat) :=
  let upsampled_logits := logits.map (bilinearResize outH outW)
  (List.range outH).map fun i => (List.range outW).map fun j =>
    argmaxIdx (upsampled_logits.map fun channel => gridGet channel i j)

lemma argmaxIdx_lt_length : ∀ (l : List ℝ), l ≠ [] → argmaxIdx l < l.length
  | [], h => absurd rfl h
  | [_], _ => Nat.zero_lt_one
  | x :: y :: r, _ => by
    have ih := argmaxIdx_lt_length (y :: r) (List.cons_ne_nil y r)
    unfold argmaxIdx
    by_cases hc : x < (y :: r).getD (argmaxIdx (y :: r)) 0
    · rw [if_pos hc]
      exact Nat.succ_lt_succ ih
    · rw [if_neg hc]
      exact Nat.succ_pos _

/-- C3: `pred_seg` is a total labeling of the original image: it has
exactly `outH` rows of exactly `outW` pixels each, and every assigned
label is an integer below the number of class channels of the logits
(`num_labels`). -/
theorem predSeg_total_labeling (logits : List (List (List ℝ)))
    (outH outW : Nat) (hC : logits ≠ []) :
    (predSeg logits outH outW).length = outH ∧
      (∀ row ∈ predSeg logits outH outW, row.length = outW) ∧
      (∀ row ∈ predSeg logits outH outW, ∀ v ∈ row, v < logits.length) := by
  refine ⟨by simp [predSeg], ?_, ?_⟩
  · intro row hrow
    simp only [predSeg, List.mem_map, List.mem_range] at hrow
    obtain ⟨i, _, hi⟩ := hrow
    simp [← hi]
  · intro row hrow v hv
    simp only [predSeg, List.mem_map, List.mem_range] at hrow
    obtain ⟨i, _, hi⟩ := hrow
    rw [← hi] at hv
    simp only [List.mem_map, List.mem_range] at hv
    obtain ⟨j, _, hj⟩ := hv
    have hne : ((logits.map (bilinearResize outH outW)).map
        fun channel => gridGet channel i j) ≠ [] := by
      simp [hC]
    have := argmaxIdx_lt_length _ hne
    rw [hj] at this
    simpa using this

/-- Witness for `predSeg_total_labeling` on a one-channel one-pixel
logit tensor upsampled to a `2 × 3` image. -/
theorem predSeg_total_labeling_witness :
    ([[[(0 : ℝ)]]] ≠ ([] : List (List (List ℝ)))) ∧
      ((predSeg [[[(0 : ℝ)]]] 2 3).length = 2 ∧
        (∀ row ∈ predSeg [[[(0 : ℝ)]]] 2 3, row.length = 3) ∧
        (∀ row ∈ predSeg [[[(0 : ℝ)]]] 2 3, ∀ v ∈ row,
          v < List.length [[[(0 : ℝ)]]])) :=
  ⟨List.cons_ne_nil _ _, predSeg_total_labeling _ 2 3 (List.cons_ne_nil _ _)⟩

/-! ## Label dictionaries (`03_video_classification.ipynb`)

The video-classification notebook builds
`label2id = {label: i for i, label in enumerate(class_labels)}` and
`id2label = {i: label for label, i in label2id.items()}`; the
image-classification notebook in the same file builds, in one loop over
`enumerate(labels)`, `label2id[label] = str(i)` and
`id2label[str(i)] = label`.  Python dictionaries are embedded as
association lists (the keys constructed here are pairwise distinct, so
first-binding lookup agrees with Python semantics). -/

/-- Python `dict` lookup on an association list. -/
def dictFind {α β : Type} [DecidableEq α] : List (α × β) → α → Option β
  | [], _ => none
  | (k, v) :: t, a => if k = a then some v else dictFind t a

/-- The `label2id` dictionary of the video-classification notebook. -/
def mkLabel2id (class_labels : List String) : List (String × Nat) :=
  class_labels.enum.map fun p => (p.2, p.1)

/-- The `id2label` dictionary of the video-classification notebook,
built from `label2id.items()` by swapping each pair. -/
def mkId2label (label2id : List (String × Nat)) : List (Nat × String) :=
  label2id.map fun p => (p.2, p.1)

/-- The `label2id` dictionary of the image-classification notebook:
ids are the decimal strings `str(i)`. -/
def mkLabel2idStr (labels : List String) : List (String × String) :=
  labels.enum.map fun p => (p.2, Nat.repr p.1)

/-- The `id2label` dictionary of the image-classification notebook. -/
def mkId2labelStr (labels : List String) : List (String × String) :=
  labels.enum.map fun p => (Nat.repr p.1, p.2)

/-! Injectivity of the decimal rendering `Nat.repr` used by `str(i)`. -/

/-- Reference most-significant-first decimal digit list of a natural
number. -/
def decDigits (n : Nat) : List Char :=
  if n < 10 then [Nat.digitChar n]
  else decDigits (n / 10) ++ [Nat.digitChar (n % 10)]
termination_by n
decreasing_by exact Nat.div_lt_self (by omega) (by omega)

lemma decDigits_lt (n : Nat) (h : n < 10) :
    decDigits n = [Nat.digitChar n] := by
  rw [decDigits, if_pos h]

lemma decDigits_ge (n : Nat) (h : ¬n < 10) :
    decDigits n = decDigits (n / 10) ++ [Nat.digitChar (n % 10)] := by
  conv_lhs => rw [decDigits]
  rw [if_neg h]

lemma decDigits_ne_nil (n : Nat) : decDigits n ≠ [] := by
  by_cases h : n < 10
  · simp [decDigits_lt n h]
  · simp [decDigits_ge n h]

lemma toDigitsCore_eq_decDigits :
    ∀ (fuel n : Nat) (ds : List Char), n < fuel →
      Nat.toDigitsCore 10 fuel n ds = decDigits n ++ ds := by
  intro fuel
  induction fuel with
  | zero => omega
  | succ f ih =>
    intro n ds h
    by_cases h10 : n / 10 = 0
    · have hn : n < 10 := by omega
      simp only [Nat.toDigitsCore, h10, if_true]
      rw [decDigits_lt n hn, Nat.mod_eq_of_lt hn]
      rfl
    · have hge : 10 ≤ n := by
        by_contra hc
        exact h10 (Nat.div_eq_of_lt (by omega))
      have hdiv : n / 10 < n := Nat.div_lt_self (by omega) (by omega)
      simp only [Nat.toDigitsCore, h10, if_false]
      rw [ih (n / 10) _ (by omega)]
      rw [decDigits_ge n (by omega)]
      simp

lemma toDigits_eq_decDigits (n : Nat) : Nat.toDigits 10 n = decDigits n := by
  unfold Nat.toDigits
  rw [toDigitsCore_eq_decDigits (n + 1) n [] (Nat.lt_succ_self n),
    List.append_nil]

lemma digitChar_injOn : ∀ a < 10, ∀ b < 10,
    Nat.digitChar a = Nat.digitChar b → a = b := by decide

lemma decDigits_inj : ∀ m n : Nat, decDigits m = decDigits n → m = n := by
  intro m
  induction m using Nat.strong_induction_on with
  | _ m ih =>
    intro n h
    by_cases hm : m < 10 <;> by_cases hn : n < 10
    · rw [decDigits_lt m hm, decDigits_lt n hn] at h
      exact digitChar_injOn m hm n hn (List.cons.inj h).1
    · rw [decDigits_lt m hm, decDigits_ge n hn] at h
      have hlen := congrArg List.length h
      have hne := decDigits_ne_nil (n / 10)
      simp only [List.length_append, List.length_singleton] at hlen
      cases hd : decDigits (n / 10) with
      | nil => exact absurd hd hne
      | cons c t => rw [hd] at hlen; simp at hlen
    · rw [decDigits_ge m hm, decDigits_lt n hn] at h
      have hlen := congrArg List.length h
      have hne := decDigits_ne_nil (m / 10)
      simp only [List.length_append, List.length_singleton] at hlen
      cases hd : decDigits (m / 10) with
      | nil => exact absurd hd hne
      | cons c t => rw [hd] at hlen; simp at hlen
    · rw [decDigits_ge m hm, decDigits_ge n hn] at h
      have hlen : ([Nat.digitChar (m % 10)] : List Char).length =
          ([Nat.digitChar (n % 10)] : List Char).length := rfl
      obtain ⟨h1, h2⟩ := List.append_inj' h hlen
      have hdiv : m / 10 = n / 10 :=
        ih (m / 10) (Nat.div_lt_self (by omega) (by omega)) (n / 10) h1
      have hmod : m % 10 = n % 10 :=
        digitChar_injOn (m % 10) (Nat.mod_lt m (by omega)) (n % 10)
          (Nat.mod_lt n (by omega)) (List.cons.inj h2).1
      omega

lemma natRepr_injective : Function.Injective Nat.repr := by
  intro m n h
  have h2 : Nat.toDigits 10 m = Nat.toDigits 10 n := congrArg String.data h
  rw [toDigits_eq_decDigits, toDigits_eq_decDigits] at h2
  exact decDigits_inj m n h2

/-- Association list pairing each element of `cl` with its encoded
enumeration index, the common shape of the `label2id` dictionaries. -/
def encPairs {α κ : Type} (f : Nat → κ) (n : Nat) (cl : List α) :
    List (α × κ) :=
  (List.enumFrom n cl).map fun p => (p.2, f p.1)

/-- Association list pairing each encoded enumeration index with its
element, the common shape of the `id2label` dictionaries. -/
def decPairs {α κ : Type} (f : Nat → κ) (n : Nat) (cl : List α) :
    List (κ × α) :=
  (List.enumFrom n cl).map fun p => (f p.1, p.2)

lemma dictFind_encPairs_index {α κ : Type} [DecidableEq α] [DecidableEq κ]
    (f : Nat → κ) :
    ∀ (cl : List α) (n : Nat) (l : α) (k : κ),
      dictFind (encPairs f n cl) l = some k → ∃ i, n ≤ i ∧ k = f i := by
  intro cl
  induction cl with
  | nil => intro n l k h; simp [encPairs, dictFind] at h
  | cons a t ih =>
    intro n l k h
    rw [show encPairs f n (a :: t) = (a, f n) :: encPairs f (n + 1) t from rfl] at h
    simp only [dictFind] at h
    by_cases hal : a = l
    · rw [if_pos hal] at h
      exact ⟨n, Nat.le_refl n, (Option.some.inj h).symm⟩
    · rw [if_neg hal] at h
      obtain ⟨i, hi, hk⟩ := ih (n + 1) l k h
      exact ⟨i, by omega, hk⟩

lemma dictFind_decPairs_mem {α κ : Type} [DecidableEq α] [DecidableEq κ]
    (f : Nat → κ) :
    ∀ (cl : List α) (n : Nat) (k : κ) (l : α),
      dictFind (decPairs f n cl) k = some l → l ∈ cl := by
  intro cl
  induction cl with
  | nil => intro n k l h; simp [decPairs, dictFind] at h
  | cons a t ih =>
    intro n k l h
    rw [show decPairs f n (a :: t) = (f n, a) :: decPairs f (n + 1) t from rfl] at h
    simp only [dictFind] at h
    by_cases hk : f n = k
    · rw [if_pos hk] at h
      exact (Option.some.inj h) ▸ List.mem_cons_self a t
    · rw [if_neg hk] at h
      exact List.mem_cons_of_mem a (ih (n + 1) k l h)

lemma dictFind_encPairs_defined {α κ : Type} [DecidableEq α] [DecidableEq κ]
    (f : Nat → κ) :
    ∀ (cl : List α) (n : Nat) (l : α), l ∈ cl →
      ∃ k, dictFind (encPairs f n cl) l = some k := by
  intro cl
  induction cl with
  | nil => intro n l h; exact absurd h (List.not_mem_nil l)
  | cons a t ih =>
    intro n l hmem
    rw [show encPairs f n (a :: t) = (a, f n) :: encPairs f (n + 1) t from rfl]
    simp only [dictFind]
    by_cases hal : a = l
    · exact ⟨f n, by rw [if_pos hal]⟩
    · have hl : l ∈ t := by
        cases List.mem_cons.mp hmem with
        | inl h => exact absurd h.symm hal
        | inr h => exact h
      obtain ⟨k, hk⟩ := ih (n + 1) l hl
      exact ⟨k, by rw [if_neg hal]; exact hk⟩

lemma encPairs_forward {α κ : Type} [DecidableEq α] [DecidableEq κ]
    (f : Nat → κ) (hf : Function.Injective f) :
    ∀ (cl : List α) (n : Nat) (l : α) (k : κ),
      dictFind (encPairs f n cl) l = some k →
      dictFind (decPairs f n cl) k = some l := by
  intro cl
  induction cl with
  | nil => intro n l k h; simp [encPairs, dictFind] at h
  | cons a t ih =>
    intro n l k h
    rw [show encPairs f n (a :: t) = (a, f n) :: encPairs f (n + 1) t from rfl] at h
    rw [show decPairs f n (a :: t) = (f n, a) :: decPairs f (n + 1) t from rfl]
    simp only [dictFind] at h ⊢
    by_cases hal : a = l
    · rw [if_pos hal] at h
      rw [if_pos (Option.some.inj h)]
      exact congrArg some hal
    · rw [if_neg hal] at h
      obtain ⟨i, hi, hk⟩ := dictFind_encPairs_index f t (n + 1) l k h
      have hne : f n ≠ k := by
        intro hc
        have := hf (hk ▸ hc)
        omega
      rw [if_neg hne]
      exact ih (n + 1) l k h

lemma encPairs_backward {α κ : Type} [DecidableEq α] [DecidableEq κ]
    (f : Nat → κ) (hf : Function.Injective f) :
    ∀ (cl : List α), cl.Nodup → ∀ (n : Nat) (k : κ) (l : α),
      dictFind (decPairs f n cl) k = some l →
      dictFind (encPairs f n cl) l = some k := by
  intro cl
  induction cl with
  | nil => intro _ n k l h; simp [decPairs, dictFind] at h
  | cons a t ih =>
    intro hnd n k l h
    have hnd' := List.nodup_cons.mp hnd
    rw [show decPairs f n (a :: t) = (f n, a) :: decPairs f (n + 1) t from rfl] at h
    rw [show encPairs f n (a :: t) = (a, f n) :: encPairs f (n + 1) t from rfl]
    simp only [dictFind] at h ⊢
    by_cases hk : f n = k
    · rw [if_pos hk] at h
      rw [if_pos (Option.some.inj h)]
      exact congrArg some hk
    · rw [if_neg hk] at h
      have hl : l ∈ t := dictFind_decPairs_mem f t (n + 1) k l h
      have hal : a ≠ l := fun hc => hnd'.1 (hc ▸ hl)
      rw [if_neg hal]
      exact ih hnd'.2 (n + 1) k l h

lemma mkLabel2id_eq_encPairs (cl : List String) :
    mkLabel2id cl = encPairs id 0 cl := rfl

lemma mkId2label_eq_decPairs (cl : List String) :
    mkId2label (mkLabel2id cl) = decPairs id 0 cl := by
  unfold mkId2label mkLabel2id decPairs
  rw [List.map_map]
  rfl

lemma mkLabel2idStr_eq_encPairs (ls : List String) :
    mkLabel2idStr ls = encPairs Nat.repr 0 ls := rfl

lemma mkId2labelStr_eq_decPairs (ls : List String) :
    mkId2labelStr ls = decPairs Nat.repr 0 ls := rfl

/-- C9: in the video-classification notebook (`label2id` and `id2label`
with `Nat` ids) and in the image-classification notebook (`label2id`
and `id2label` with decimal-string ids), the two dictionaries are
mutually inverse over the dataset's classes: every class label round
trips through `label2id` then `id2label`, and every assigned id round
trips through `id2label` then `label2id`. -/
theorem label_maps_mutually_inverse
    (class_labels labels : List String)
    (h1 : class_labels.Nodup) (h2 : labels.Nodup) :
    (∀ l ∈ class_labels, ∃ i, dictFind (mkLabel2id class_labels) l = some i ∧
        dictFind (mkId2label (mkLabel2id class_labels)) i = some l) ∧
      (∀ i l, dictFind (mkId2label (mkLabel2id class_labels)) i = some l →
        dictFind (mkLabel2id class_labels) l = some i) ∧
      (∀ l ∈ labels, ∃ s, dictFind (mkLabel2idStr labels) l = some s ∧
        dictFind (mkId2labelStr labels) s = some l) ∧
      (∀ s l, dictFind (mkId2labelStr labels) s = some l →
        dictFind (mkLabel2idStr labels) l = some s) := by
  rw [mkId2label_eq_decPairs, mkLabel2id_eq_encPairs,
    mkLabel2idStr_eq_encPairs, mkId2labelStr_eq_decPairs]
  refine ⟨?_, ?_, ?_, ?_⟩
  · intro l hl
    obtain ⟨k, hk⟩ := dictFind_encPairs_defined id class_labels 0 l hl
    exact ⟨k, hk, encPairs_forward id (fun a b h => h) class_labels 0 l k hk⟩
  · intro i l h
    exact encPairs_backward id (fun a b h => h) class_labels h1 0 i l h
  · intro l hl
    obtain ⟨k, hk⟩ := dictFind_encPairs_defined Nat.repr labels 0 l hl
    exact ⟨k, hk, encPairs_forward Nat.repr natRepr_injective labels 0 l k hk⟩
  · intro s l h
    exact encPairs_backward Nat.repr natRepr_injective labels h2 0 s l h

/-- Witness for `label_maps_mutually_inverse` on two concrete class
lists. -/
theorem label_maps_mutually_inverse_witness :
    (["ApplyEyeMakeup", "Basketball"] : List String).Nodup ∧
      (["beignets", "bruschetta"] : List String).Nodup ∧
      ((∀ l ∈ (["ApplyEyeMakeup", "Basketball"] : List String), ∃ i,
          dictFind (mkLabel2id ["ApplyEyeMakeup", "Basketball"]) l = some i ∧
          dictFind (mkId2label (mkLabel2id ["ApplyEyeMakeup", "Basketball"])) i =
            some l) ∧
        (∀ i l,
          dictFind (mkId2label (mkLabel2id ["ApplyEyeMakeup", "Basketball"])) i =
            some l →
          dictFind (mkLabel2id ["ApplyEyeMakeup", "Basketball"]) l = some i) ∧
        (∀ l ∈ (["beignets", "bruschetta"] : List String), ∃ s,
          dictFind (mkLabel2idStr ["beignets", "bruschetta"]) l = some s ∧
          dictFind (mkId2labelStr ["beignets", "bruschetta"]) s = some l) ∧
        (∀ s l, dictFind (mkId2labelStr ["beignets", "bruschetta"]) s = some l →
          dictFind (mkLabel2idStr ["beignets", "bruschetta"]) l = some s)) :=
  ⟨by decide, by decide,
    label_maps_mutually_inverse ["ApplyEyeMakeup", "Basketball"]
      ["beignets", "bruschetta"] (by decide) (by decide)⟩

/-! ## Image-classification preprocessing (`transforms`)

Embedding of the preprocessing function of the image-classification
notebook:

```
def transforms(examples):
    examples["pixel_values"] = [_transforms(img.convert("RGB")) for img in examples["image"]]
    del examples["image"]
    return examples
```

A batch (a Python dict) is embedded as a partial map
`String → Option (BatchVal I P O)`; `dictSet` is dict assignment,
`dictDel` is `del`, and a missing `"image"` key is the `KeyError`
case. -/

/-- Value stored under one field of an example batch: a list of raw
images, a list of pixel-value tensors, or any other field content. -/
inductive BatchVal (I P O : Type) where
  | image (xs : List I)
  | pixels (xs : List P)
  | raw (o : O)
deriving DecidableEq

/-- Python dict assignment `d[k] = v`. -/
def dictSet {V : Type} (d : String → Option V) (k : String) (v : V) :
    String → Option V :=
  fun q => if q = k then some v else d q

/-- Python `del d[k]`. -/
def dictDel {V : Type} (d : String → Option V) (k : String) :
    String → Option V :=
  fun q => if q = k then none else d q

/-- Embedding of the `transforms` preprocessing function: read the
`"image"` field (a missing field is Python's `KeyError`, the `none`
result), store under `"pixel_values"` the list obtained by applying
`_transforms` composed with `convert("RGB")` to every image, and delete
the `"image"` field. -/
def transformsFn {I P O : Type} (convRGB : I → I) (pipelineTf : I → P)
    (examples : String → Option (BatchVal I P O)) :
    Option (String → Option (BatchVal I P O)) :=
  match examples "image" with
  | some (BatchVal.image xs) =>
    some (dictDel
      (dictSet examples "pixel_values"
        (BatchVal.pixels (xs.map fun img => pipelineTf (convRGB img))))
      "image")
  | _ => none

/-- C10: on a batch that has an `"image"` field, `transforms` removes
`"image"`, adds `"pixel_values"` computed from the images, and leaves
every other field (in particular `"label"`) unchanged. -/
theorem transforms_frame_effect {I P O : Type} (convRGB : I → I)
    (pipelineTf : I → P) (examples : String → Option (BatchVal I P O))
    (xs : List I) (himg : examples "image" = some (BatchVal.image xs)) :
    ∃ r, transformsFn convRGB pipelineTf examples = some r ∧
      r "image" = none ∧
      r "pixel_values" =
        some (BatchVal.pixels (xs.map fun img => pipelineTf (convRGB img))) ∧
      ∀ k, k ≠ "image" → k ≠ "pixel_values" → r k = examples k := by
  refine ⟨_, by rw [transformsFn, himg], ?_, ?_, ?_⟩
  · simp [dictDel]
  · simp [dictDel, dictSet]
  · intro k hk1 hk2
    simp [dictDel, dictSet, hk1, hk2]

/-- Witness for `transforms_frame_effect` on a concrete two-field
batch over `Nat`-coded images, pixel tensors and labels. -/
theorem transforms_frame_effect_witness :
    ((fun k => if k = "image" then some (BatchVal.image [3, 4]) else
        if k = "label" then some (BatchVal.raw 7) else none :
        String → Option (BatchVal Nat Nat Nat)) "image" =
      some (BatchVal.image [3, 4])) ∧
      ∃ r, transformsFn (fun i => i) (fun i => i + 1)
          (fun k => if k = "image" then some (BatchVal.image [3, 4]) else
            if k = "label" then some (BatchVal.raw 7) else none) = some r ∧
        r "image" = none ∧
        r "pixel_values" =
          some (BatchVal.pixels (List.map (fun img => (fun i => i + 1)
            ((fun i : Nat => i) img)) [3, 4])) ∧
        ∀ k, k ≠ "image" → k ≠ "pixel_values" →
          r k = (fun k => if k = "image" then some (BatchVal.image [3, 4]) else
            if k = "label" then some (BatchVal.raw 7) else none :
            String → Option (BatchVal Nat Nat Nat)) k :=
  ⟨rfl, transforms_frame_effect (fun i => i) (fun i => i + 1) _ [3, 4] rfl⟩

/-! ## Notebook script structure

Each notebook is a linear script; its top-level cell operations are
embedded as an explicit event trace, transcribed cell by cell from the
source.  The event type also provides constructors for concurrency,
caching, protocol, backpressure and scheduling operations so that their
absence from every trace is a meaningful statement. -/

/-- The tutorial phases named by the specification. -/
inductive Phase where
  | install
  | loadCkpt
  | prep
  | tRun
  | visualize
deriving DecidableEq

/-- Position of a phase in the tutorial order of the specification. -/
def phaseIdx : Phase → Nat
  | .install => 0
  | .loadCkpt => 1
  | .prep => 2
  | .tRun => 3
  | .visualize => 4

/-- One top-level operation of a notebook cell. -/
inductive Ev where
  | pipInstall (pkgs : List String)
  | importLibs
  | fetchImage (v url : String)
  | fetchDataset (v name : String)
  | extractArchive (path : String)
  | mkPipeline (v task checkpoint : String)
  | mkPipelineAuto (v model : String)
  | loadPretrainedModel (v checkpoint : String)
  | loadPretrainedProcessor (v checkpoint : String)
  | initRandomModel (v : String)
  | callPipeline (res pipe arg : String)
  | promptPointInference (model img : String) (points : List (Nat × Nat))
  | promptBoxInference (model img : String)
    (boxes : List (Nat × Nat × Nat × Nat))
  | applyPreprocess (desc : String)
  | defClass (name : String)
  | defFn (name : String)
  | buildTrainer (v : String)
  | trainerTrain (v : String)
  | trainerEvaluate (v : String)
  | modelInference (desc : String)
  | plotShow
  | showGif
  | printValue (desc : String)
  | rebind (v : String)
  | writeFile (name : String)
  | hubUpload (repo : String)
  | threadSpawn (desc : String)
  | lockAcquire (desc : String)
  | cacheStore (desc : String)
  | openSocket (desc : String)
  | scheduleJob (desc : String)
deriving DecidableEq

/-- Tutorial phase of an event, if it belongs to one. -/
def evPhase : Ev → Option Phase
  | .pipInstall _ => some .install
  | .mkPipeline _ _ _ => some .loadCkpt
  | .mkPipelineAuto _ _ => some .loadCkpt
  | .loadPretrainedModel _ _ => some .loadCkpt
  | .loadPretrainedProcessor _ _ => some .loadCkpt
  | .applyPreprocess _ => some .prep
  | .callPipeline _ _ _ => some .tRun
  | .promptPointInference _ _ _ => some .tRun
  | .promptBoxInference _ _ _ => some .tRun
  | .trainerTrain _ => some .tRun
  | .trainerEvaluate _ => some .tRun
  | .modelInference _ => some .tRun
  | .plotShow => some .visualize
  | .showGif => some .visualize
  | _ => none

/-- Trace of `11_mask_generation.ipynb`. -/
def maskGenTrace : List Ev := [
  .pipInstall ["transformers"],
  .importLibs,
  .mkPipeline "mask_generator" "mask-generation" "facebook/sam-vit-huge",
  .fetchImage "image"
    "https://huggingface.co/datasets/huggingface/documentation-images/resolve/main/bee.jpg",
  .callPipeline "masks" "mask_generator" "image",
  .plotShow,
  .loadPretrainedModel "model" "facebook/sam-vit-base",
  .loadPretrainedProcessor "processor" "facebook/sam-vit-base",
  .promptPointInference "model" "image" [(2592, 1728)],
  .plotShow,
  .promptBoxInference "model" "image" [(2350, 1600, 2850, 2100)],
  .plotShow,
  .plotShow]

/-- Trace of `02_image_segmentation.ipynb`. -/
def segTrace : List Ev := [
  .pipInstall ["datasets", "transformers", "evaluate", "accelerate"],
  .importLibs,
  .fetchImage "image"
    "https://huggingface.co/datasets/huggingface/documentation-images/resolve/main/transformers/tasks/segmentation_input.jpg",
  .mkPipeline "semantic_segmentation" "image-segmentation"
    "nvidia/segformer-b1-finetuned-cityscapes-1024-1024",
  .callPipeline "results" "semantic_segmentation" "image",
  .mkPipeline "instance_segmentation" "image-segmentation"
    "facebook/mask2former-swin-large-cityscapes-instance",
  .callPipeline "results" "instance_segmentation" "image",
  .mkPipeline "panoptic_segmentation" "image-segmentation"
    "facebook/mask2former-swin-large-cityscapes-panoptic",
  .callPipeline "results" "panoptic_segmentation" "image",
  .fetchDataset "ds" "scene_parse_150",
  .fetchDataset "id2label" "huggingface/label-files",
  .loadPretrainedProcessor "image_processor" "nvidia/mit-b0",
  .applyPreprocess "jitter + train_transforms/val_transforms via set_transform",
  .defFn "compute_metrics",
  .loadPretrainedModel "model" "nvidia/mit-b0",
  .buildTrainer "trainer",
  .trainerTrain "trainer",
  .fetchDataset "ds" "scene_parse_150",
  .rebind "image",
  .modelInference "model(pixel_values), bilinear upsample, argmax pred_seg",
  .defFn "ade_palette",
  .plotShow,
  .defFn "create_dataset",
  .hubUpload "your-name/dataset-repo",
  .writeFile "id2label.json"]

/-- Trace of the video-classification part of
`03_video_classification.ipynb`. -/
def videoTrace : List Ev := [
  .pipInstall ["pytorchvideo", "transformers", "evaluate"],
  .importLibs,
  .fetchDataset "file_path" "sayakpaul/ucf101-subset",
  .extractArchive "UCF101_subset.tar.gz",
  .rebind "all_video_file_paths",
  .rebind "label2id",
  .rebind "id2label",
  .loadPretrainedProcessor "image_processor" "MCG-NJU/videomae-base",
  .loadPretrainedModel "model" "MCG-NJU/videomae-base",
  .applyPreprocess "pytorchvideo transforms + Ucf101 clip datasets",
  .defFn "unnormalize_img",
  .defFn "create_gif",
  .defFn "display_gif",
  .showGif,
  .defFn "compute_metrics",
  .buildTrainer "trainer",
  .trainerTrain "trainer",
  .modelInference "sample_test_video",
  .mkPipelineAuto "video_cls" "videomae-base-finetuned-ucf101-subset",
  .callPipeline "_" "video_cls"
    "https://huggingface.co/datasets/sayakpaul/ucf101-subset/resolve/main/v_BasketballDunk_g14_c06.avi",
  .defFn "run_inference",
  .modelInference "run_inference(trained_model, sample_test_video)",
  .printValue "Predicted class"]

/-- Trace of the image-classification part of
`03_video_classification.ipynb`. -/
def imgClfTrace : List Ev := [
  .pipInstall ["transformers", "datasets", "evaluate", "accelerate"],
  .importLibs,
  .fetchDataset "food" "food101",
  .rebind "label2id",
  .rebind "id2label",
  .loadPretrainedProcessor "image_processor" "google/vit-base-patch16-224-in21k",
  .applyPreprocess "RandomResizedCrop/ToTensor/Normalize via with_transform",
  .defFn "compute_metrics",
  .loadPretrainedModel "model" "google/vit-base-patch16-224-in21k",
  .buildTrainer "trainer",
  .trainerTrain "trainer",
  .fetchDataset "ds" "food101",
  .mkPipeline "classifier" "image-classification" "image_clf_model",
  .callPipeline "_" "classifier" "image",
  .loadPretrainedProcessor "image_processor" "image_clf_model",
  .loadPretrainedModel "model" "image_clf_model",
  .modelInference "logits = model(**inputs).logits",
  .printValue "id2label[predicted_label]"]

/-- Trace of `10_knowledge_distillation.ipynb`. -/
def kdTrace : List Ev := [
  .pipInstall ["transformers", "datasets", "accelerate", "tensorboard",
    "evaluate"],
  .importLibs,
  .fetchDataset "dataset" "beans",
  .loadPretrainedProcessor "teacher_processor" "merve/beans-vit-224",
  .applyPreprocess "dataset.map(process, batched=True)",
  .defClass "ImageDistilTrainer",
  .loadPretrainedModel "teacher_model" "merve/beans-vit-224",
  .initRandomModel "student_model",
  .defFn "compute_metrics",
  .buildTrainer "trainer",
  .trainerTrain "trainer",
  .trainerEvaluate "trainer"]

/-- The notebooks of the repository (the two parts of
`03_video_classification.ipynb` listed separately). -/
def notebookTraces : List (List Ev) :=
  [maskGenTrace, segTrace, videoTrace, imgClfTrace, kdTrace]

/-- Indices of the phases of the events of a trace, in trace order. -/
def phaseSeq (t : List Ev) : List Nat :=
  (t.filterMap evPhase).map phaseIdx

/-- A list of naturals is nondecreasing. -/
def nondecr : List Nat → Bool
  | [] => true
  | [_] => true
  | a :: b :: r => decide (a ≤ b) && nondecr (b :: r)

/-- The trace ends with a plotting call. -/
def endsWithPlot (t : List Ev) : Bool :=
  match t.getLast? with
  | some Ev.plotShow => true
  | _ => false

/-- The linear-tutorial property claimed by the specification for every
notebook: phases occur in nondecreasing order and the notebook ends in
plotting-based visualization. -/
def linearTutorial (t : List Ev) : Prop :=
  nondecr (phaseSeq t) = true ∧ endsWithPlot t = true

/-- The first event of the trace installs dependencies. -/
def startsWithInstall : List Ev → Bool
  | Ev.pipInstall _ :: _ => true
  | _ => false

/-- The event loads a pretrained checkpoint (directly or through a
pipeline constructor). -/
def isCkptLoad : Ev → Bool
  | .mkPipeline _ _ _ => true
  | .mkPipelineAuto _ _ => true
  | .loadPretrainedModel _ _ => true
  | .loadPretrainedProcessor _ _ => true
  | _ => false

/-- The event runs inference, training or evaluation. -/
def isRunOp : Ev → Bool
  | .callPipeline _ _ _ => true
  | .promptPointInference _ _ _ => true
  | .promptBoxInference _ _ _ => true
  | .trainerTrain _ => true
  | .trainerEvaluate _ => true
  | .modelInference _ => true
  | _ => false

def runsAfterCkptAux : List Ev → Bool → Bool
  | [], _ => true
  | e :: r, seen =>
    (!isRunOp e || seen) && runsAfterCkptAux r (seen || isCkptLoad e)

/-- Every inference/training event of the trace is preceded by at least
one checkpoint-loading event. -/
def runsAfterCkpt (t : List Ev) : Bool := runsAfterCkptAux t false

/-- The event is a matplotlib plotting call. -/
def isPlotOp : Ev → Bool
  | .plotShow => true
  | _ => false

/-- The event binds or rebinds the `image` variable. -/
def bindsImage : Ev → Bool
  | .fetchImage v _ => v = "image"
  | .rebind v => v = "image"
  | _ => false

/-- The event is a concurrency-coordination, caching/storage-engine,
protocol, backpressure or scheduling operation. -/
def isSystemsOp : Ev → Bool
  | .threadSpawn _ => true
  | .lockAcquire _ => true
  | .cacheStore _ => true
  | .openSocket _ => true
  | .scheduleJob _ => true
  | _ => false

/-- Kind of one statement of `ImageDistilTrainer.compute_loss`.  The
kinds a systems component would need are present so that their absence
is a meaningful statement. -/
inductive StepKind where
  | externalModelCall
  | tensorLibCall
  | attributeRead
  | tensorArith
  | returnValue
  | threadOp
  | storageOp
  | protocolOp
  | backpressureOp
  | scheduleOp
deriving DecidableEq

/-- The statements of `ImageDistilTrainer.compute_loss`, in source
order, each with its kind. -/
def computeLossSteps : List (String × StepKind) := [
  ("student_output = self.student(**inputs)", .externalModelCall),
  ("with torch.no_grad(): teacher_output = self.teacher(**inputs)",
    .externalModelCall),
  ("soft_teacher = F.softmax(teacher_output.logits / self.temperature, dim=-1)",
    .tensorLibCall),
  ("soft_student = F.log_softmax(student_output.logits / self.temperature, dim=-1)",
    .tensorLibCall),
  ("distillation_loss = self.loss_function(soft_student, soft_teacher) * (self.temperature ** 2)",
    .tensorLibCall),
  ("student_target_loss = student_output.loss", .attributeRead),
  ("loss = (1. - self.lambda_param) * student_target_loss + self.lambda_param * distillation_loss",
    .tensorArith),
  ("return (loss, student_output) if return_outputs else loss",
    .returnValue)]

/-- The step is a call into the model or tensor libraries, or a trivial
attribute read, tensor arithmetic or value return. -/
def isLibraryStep : StepKind → Bool
  | .externalModelCall => true
  | .tensorLibCall => true
  | .attributeRead => true
  | .tensorArith => true
  | .returnValue => true
  | _ => false

/-- The step would belong to a systems component. -/
def isSystemsStep : StepKind → Bool
  | .threadOp => true
  | .storageOp => true
  | .protocolOp => true
  | .backpressureOp => true
  | .scheduleOp => true
  | _ => false

/-- C4: the mask-generation notebook exercises both SAM modes on one
input image: exhaustive mask generation through the mask-generation
pipeline, and prompt-based generation twice over the same image, once
with a single point prompt and once with a single bounding-box prompt
whose coordinates are in `[x_min, y_min, x_max, y_max]` order; the
`image` variable is bound exactly once in the whole notebook. -/
theorem maskGen_exercises_both_sam_modes :
    Ev.mkPipeline "mask_generator" "mask-generation" "facebook/sam-vit-huge"
        ∈ maskGenTrace ∧
      Ev.callPipeline "masks" "mask_generator" "image" ∈ maskGenTrace ∧
      Ev.promptPointInference "model" "image" [(2592, 1728)] ∈ maskGenTrace ∧
      Ev.promptBoxInference "model" "image" [(2350, 1600, 2850, 2100)]
        ∈ maskGenTrace ∧
      List.length [(2592, 1728)] = 1 ∧
      List.length [(2350, 1600, 2850, 2100)] = 1 ∧
      (2350 ≤ 2850 ∧ 1600 ≤ 2100) ∧
      maskGenTrace.countP bindsImage = 1 := by decide

/-- C5: the image-segmentation notebook runs the image-segmentation
pipeline under all three tasks with three pairwise distinct checkpoints,
and all three pipeline runs happen in the prefix of the notebook in
which the `image` variable has been bound exactly once (the same input
image). -/
theorem segmentation_three_tasks_same_image :
    Ev.mkPipeline "semantic_segmentation" "image-segmentation"
        "nvidia/segformer-b1-finetuned-cityscapes-1024-1024" ∈ segTrace ∧
      Ev.mkPipeline "instance_segmentation" "image-segmentation"
        "facebook/mask2former-swin-large-cityscapes-instance" ∈ segTrace ∧
      Ev.mkPipeline "panoptic_segmentation" "image-segmentation"
        "facebook/mask2former-swin-large-cityscapes-panoptic" ∈ segTrace ∧
      Ev.callPipeline "results" "semantic_segmentation" "image"
        ∈ segTrace.take 10 ∧
      Ev.callPipeline "results" "instance_segmentation" "image"
        ∈ segTrace.take 10 ∧
      Ev.callPipeline "results" "panoptic_segmentation" "image"
        ∈ segTrace.take 10 ∧
      (segTrace.take 10).countP bindsImage = 1 ∧
      ("nvidia/segformer-b1-finetuned-cityscapes-1024-1024" ≠
        "facebook/mask2former-swin-large-cityscapes-instance") ∧
      ("nvidia/segformer-b1-finetuned-cityscapes-1024-1024" ≠
        "facebook/mask2former-swin-large-cityscapes-panoptic") ∧
      ("facebook/mask2former-swin-large-cityscapes-instance" ≠
        "facebook/mask2former-swin-large-cityscapes-panoptic") := by decide

/-- C6 counterexample: the knowledge-distillation notebook does not
satisfy the linear-tutorial property: a checkpoint load occurs after
preprocessing, and the notebook ends with trainer evaluation rather
than a plotting call. -/
theorem kd_notebook_not_linear_plot_ending : ¬ linearTutorial kdTrace := by
  unfold linearTutorial
  decide

/-- C6 amended: every notebook begins with dependency installation, and
in every notebook every inference/training step is preceded by a
checkpoint load; the mask-generation notebook ends in plotting-based
visualization, but the knowledge-distillation notebook contains no
plotting call at all and ends with trainer evaluation, so the phases
are not globally ordered and not every notebook ends in plotting. -/
theorem notebooks_linear_structure_amended :
    (notebookTraces.all startsWithInstall) = true ∧
      (notebookTraces.all runsAfterCkpt) = true ∧
      endsWithPlot maskGenTrace = true ∧
      (kdTrace.any isPlotOp) = false ∧
      kdTrace.getLast? = some (Ev.trainerEvaluate "trainer") := by decide

/-- C7: no operation of any notebook performs concurrency coordination,
custom storage or caching, protocol handling, failure
handling/backpressure, or scheduling, and every statement of the only
custom training-loop extension, `ImageDistilTrainer.compute_loss`, is a
straight-line call into the external model and tensor libraries (or a
trivial attribute read, tensor arithmetic, or the final return). -/
theorem no_systems_operations :
    (notebookTraces.all fun t => t.all fun e => !isSystemsOp e) = true ∧
      (computeLossSteps.all fun s =>
        isLibraryStep s.2 && !isSystemsStep s.2) = true := by decide
